import Mathlib

/-!
Verification development for the `export-intune-apps` CLI.

The repository is a sequential ETL script (`intune-export.js` plus a small
sqlite wrapper `lib/db.js`): it fetches the Intune mobile-app inventory,
normalizes and persists one row per `platformAppKey` into a sqlite table
`app`, optionally enriches rows with public store metadata, and exports the
table to CSV and JSON.

The embedding below models JavaScript strings as `List Char` and translates
the string primitives the script uses (`startsWith`, `includes`,
`String.prototype.replace` with a string pattern — which replaces only the
first occurrence — and `split`) directly.  The sqlite `app` table is a
`List AppRow`; its two `UNIQUE` columns (`platformAppKey`, `intuneAppId`)
are reflected in the insert path of `processApp`, matching the
check-then-insert logic of `addAppsToDb` together with sqlite's rejection
of a constraint-violating `INSERT` (which the script catches per record and
skips).  External collaborators (the Graph API, the two store scrapers, the
`Date` parser, the serializers) are modelled as parameters or, where a
claim needs their shape, from the spec's own description.
-/

set_option autoImplicit false

namespace IntuneExport

/-! ### JavaScript string primitives, on `List Char` -/

/-- Characters of a string literal. -/
def strL (s : String) : List Char := s.toList

/-- JavaScript `String.prototype.startsWith`: `prefOf p s` is true iff `p`
is a prefix of `s`. -/
def prefOf : List Char → List Char → Bool
  | [], _ => true
  | _ :: _, [] => false
  | p :: ps, c :: cs => p == c && prefOf ps cs

/-- Substring occurrence: true iff `sub` occurs (contiguously) in `s`. -/
def containsSub (sub : List Char) : List Char → Bool
  | [] => prefOf sub []
  | c :: cs => prefOf sub (c :: cs) || containsSub sub cs

/-- JavaScript `String.prototype.includes`. -/
def jsIncludes (s sub : List Char) : Bool := containsSub sub s

/-- Fuelled worker for `splitl`; the fuel is an upper bound on the length of
the string still to split, so `splitl` below never exhausts it. -/
def splitlF : Nat → List Char → List Char → List (List Char)
  | 0, _, s => [s]
  | _ + 1, _, [] => [[]]
  | fuel + 1, sep, c :: cs =>
    if !sep.isEmpty && prefOf sep (c :: cs) then
      [] :: splitlF fuel sep ((c :: cs).drop sep.length)
    else
      match splitlF fuel sep cs with
      | [] => [[c]]
      | t :: ts => (c :: t) :: ts

/-- JavaScript `String.prototype.split` with a non-empty string separator:
greedy left-to-right splitting.  (The script never splits on the empty
string, whose JavaScript behaviour differs.) -/
def splitl (sep s : List Char) : List (List Char) := splitlF s.length sep s

/-- JavaScript `String.prototype.replace` with a *string* pattern: replaces
only the first occurrence of `pat` (for an empty pattern it prepends, as in
JavaScript; the script only ever uses non-empty patterns). -/
def replaceFirstl (pat repl : List Char) : List Char → List Char
  | [] => if prefOf pat [] then repl else []
  | c :: cs =>
    if prefOf pat (c :: cs) then repl ++ (c :: cs).drop pat.length
    else c :: replaceFirstl pat repl cs

/-- JavaScript truthiness of a nullable string: `null`/`undefined` and the
empty string are falsy. -/
def jsTruthyS : Option (List Char) → Bool
  | none => false
  | some [] => false
  | some (_ :: _) => true

/-- JavaScript `a || b` on nullable strings. -/
def jsOrS (a b : Option (List Char)) : Option (List Char) :=
  if jsTruthyS a then a else b

/-- Template-literal rendering of a nullable string: JavaScript renders
`null` (and the script's absent values) as the text "null". -/
def tmplOpt : Option (List Char) → List Char
  | none => strL "null"
  | some s => s

/-! ### The store-URL resolver (`getPackageOrItunesId`, lines 176–201) -/

/-- The Google Play prefix tested first by `getPackageOrItunesId`. -/
def googleDetailsPrefixL : List Char :=
  strL "https://play.google.com/store/apps/details?id="

/-- The Apple App Store prefix tested second by `getPackageOrItunesId`. -/
def appleAppPrefixL : List Char := strL "https://apps.apple.com/us/app/"

/-- Translation of `getPackageOrItunesId(url)`: for a Google Play URL strip
the details prefix (first occurrence, as JS `replace`) and keep everything
before the first `&`; for an Apple URL strip the prefix, keep everything
before the first `?`, split on `/`, take the last segment and delete the
first occurrence of "id" from it; otherwise return `null`. -/
def getPackageOrItunesId (url : List Char) : Option (List Char) :=
  if prefOf googleDetailsPrefixL url then
    let url1 := replaceFirstl googleDetailsPrefixL [] url
    some ((splitl (strL "&") url1).headD [])
  else if prefOf appleAppPrefixL url then
    let url1 := replaceFirstl appleAppPrefixL [] url
    let url2 := (splitl (strL "?") url1).headD []
    let parts := splitl (strL "/") url2
    some (replaceFirstl (strL "id") [] (parts.getLastD []))
  else none

/-! ### Resolver policies in the spec's words (for comparison) -/

/-- The Android policy exactly as the spec states it, applied to the URL
remainder after the Google Play prefix: discard everything from the first
`&` onward. -/
def specGoogleId (rest : List Char) : List Char :=
  (splitl (strL "&") rest).headD []

/-- The Apple policy as the spec states it, applied to the URL remainder
after the Apple prefix, except for its final step: discard the query
string, split on `/`, take the last segment, and remove the *first
occurrence* of the substring "id". -/
def specAppleFirstId (rest : List Char) : List Char :=
  replaceFirstl (strL "id") []
    ((splitl (strL "/") ((splitl (strL "?") rest).headD [])).getLastD [])

/-- The Apple policy literally as claimed ("removes the leading id token"):
discard the query string, split on `/`, take the last segment, and drop a
*leading* "id" if present. -/
def specAppleLeadingId (rest : List Char) : List Char :=
  let seg := (splitl (strL "/") ((splitl (strL "?") rest).headD [])).getLastD []
  if prefOf (strL "id") seg then seg.drop 2 else seg

/-! ### Data model -/

/-- One raw inventory record as returned by the Graph API, restricted to
the fields the script reads.  `none` models an absent or `null` JSON
field (reading a method off it, as `addAppsToDb` does with
`app["@odata.type"].includes` and `getPackageOrItunesId` does with
`url.startsWith`, throws and the record is skipped by the loop's catch). -/
structure IntuneApp where
  odataType : Option (List Char)
  id : Option (List Char)
  packageId : Option (List Char)
  appStoreUrl : Option (List Char)
deriving DecidableEq, Repr

/-- A JavaScript value in a timestamp position of the provider metadata:
a string, a finite number (epoch value), `NaN` (an invalid `Date`), or
anything else (`undefined`, `null`, objects …). -/
inductive TsVal where
  | str (s : List Char)
  | num (n : Int)
  | nan
  | other
deriving DecidableEq, Repr

/-- One row of the sqlite `app` table (schema created by `initAppDb`,
lines 360–389).  Columns are nullable; `score` is a REAL column that the
claims never inspect, carried here as an opaque integer-valued slot. -/
structure AppRow where
  intuneAppId : Option (List Char)
  platformAppKey : List Char
  packageId : Option (List Char)
  itunesId : Option (List Char)
  appIdentifier : Option (List Char)
  platform : List Char
  title : Option (List Char)
  url : Option (List Char)
  description : Option (List Char)
  minInstalls : Option Int
  maxInstalls : Option Int
  icon : Option (List Char)
  primaryGenre : Option (List Char)
  releasedAt : Option TsVal
  updatedAt : Option TsVal
  developerId : Option (List Char)
  developerEmail : Option (List Char)
  developer : Option (List Char)
  developerUrl : Option (List Char)
  developerWebsite : Option (List Char)
  developerAddress : Option (List Char)
  score : Option Int
  reviews : Option Int
  ratings : Option Int
  ratingsHistogram : Option (List Char)
deriving DecidableEq, Repr

/-- A fresh store: `initAppDb` creates the `app` table if missing; its
`UNIQUE` constraints on `intuneAppId` and `platformAppKey` are reflected
in the insert path of `processApp`. -/
def initAppDb : List AppRow := []

/-! ### Ingestion (`addAppsToDb`, lines 113–174) -/

/-- The platform tag "android". -/
def androidL : List Char := strL "android"

/-- The platform tag "ios". -/
def iosL : List Char := strL "ios"

/-- The sqlite `UNIQUE` constraint on `intuneAppId` (NULLs are distinct in
sqlite): an `INSERT` carrying `some v` fails iff some row already holds
`some v`. -/
def intuneIdConflict (db : List AppRow) : Option (List Char) → Bool
  | none => false
  | some v => db.any fun row => row.intuneAppId == some v

/-- The row built by the `INSERT` of `addAppsToDb` (lines 156–168): the six
listed columns from the record, every other column NULL. -/
def mkRow (app : IntuneApp) (platform : List Char)
    (itunesId appIdentifier : Option (List Char)) (key : List Char) : AppRow :=
  { intuneAppId := app.id, platformAppKey := key, packageId := app.packageId,
    itunesId := itunesId, appIdentifier := appIdentifier, platform := platform,
    title := none, url := none, description := none, minInstalls := none,
    maxInstalls := none, icon := none, primaryGenre := none, releasedAt := none,
    updatedAt := none, developerId := none, developerEmail := none,
    developer := none, developerUrl := none, developerWebsite := none,
    developerAddress := none, score := none, reviews := none, ratings := none,
    ratingsHistogram := none }

/-- Lines 136–140: `itunesId` stays `null` except for iOS records, where
`getPackageOrItunesId(app.appStoreUrl)` is called; a missing URL makes
`url.startsWith` throw (`none` here), and the loop's catch skips the
record. -/
def resolveIos (app : IntuneApp) (platform : List Char) :
    Option (Option (List Char)) :=
  if platform = iosL then
    match app.appStoreUrl with
    | none => none
    | some u => some (getPackageOrItunesId u)
  else some none

/-- Line 143: the template literal
`platformAppKey = platform + "-" + (packageId || itunesId)`, where
JavaScript renders a `null` identifier as the text "null". -/
def keyOf (app : IntuneApp) (platform : List Char)
    (itunesId : Option (List Char)) : List Char :=
  platform ++ strL "-" ++ tmplOpt (jsOrS app.packageId itunesId)

/-- The platform-specific part of one `addAppsToDb` iteration, after the
platform has been determined (lines 135–169): for iOS resolve the store
URL; compose `platformAppKey`; skip when a row with that key exists;
otherwise insert, which the `UNIQUE(intuneAppId)` constraint can still
reject (caught, record skipped). -/
def processPlat (db : List AppRow) (app : IntuneApp) (platform : List Char) :
    List AppRow :=
  match resolveIos app platform with
  | none => db
  | some itunesId =>
    let appIdentifier := jsOrS app.packageId itunesId
    let platformAppKey := keyOf app platform itunesId
    if db.any (fun row => row.platformAppKey == platformAppKey) then db
    else if intuneIdConflict db app.id then db
    else db ++ [mkRow app platform itunesId appIdentifier platformAppKey]

/-- One iteration of the `addAppsToDb` loop (lines 123–173): determine the
platform from the `@odata.type` discriminator ("android" is tested before
"ios"); any other discriminator — or a missing one, which throws — skips
the record. -/
def processApp (db : List AppRow) (app : IntuneApp) : List AppRow :=
  match app.odataType with
  | none => db
  | some t =>
    if jsIncludes t androidL then processPlat db app androidL
    else if jsIncludes t iosL then processPlat db app iosL
    else db

/-- Translation of `addAppsToDb(db, apps)`: fold the per-record step over
the inventory in API order. -/
def addAppsToDb (db : List AppRow) (apps : List IntuneApp) : List AppRow :=
  apps.foldl processApp db

/-! ### Enrichment (`enrichAppMetadata`, lines 220–348) -/

/-- The provider metadata object, restricted to the fields the script
copies into the row.  `histogram` carries the already-serialized value of
`JSON.stringify(appMetadata.histogram)` (the serializer is an external
collaborator). -/
structure Metadata where
  title : Option (List Char)
  url : Option (List Char)
  description : Option (List Char)
  minInstalls : Option Int
  maxInstalls : Option Int
  icon : Option (List Char)
  genre : Option (List Char)
  primaryGenre : Option (List Char)
  released : TsVal
  updated : TsVal
  developerId : Option (List Char)
  developerEmail : Option (List Char)
  developer : Option (List Char)
  developerUrl : Option (List Char)
  developerWebsite : Option (List Char)
  developerAddress : Option (List Char)
  score : Option Int
  reviews : Option Int
  ratings : Option Int
  histogram : Option (List Char)

/-- The external collaborators of enrichment: the Google Play scraper
(`gplay.app({appId, throttle: 1})`), the App Store scraper
(`store.app({id, ratings: true})`) — each either throws with an error
message or resolves (possibly with a falsy value, which the script guards
with `if (!appMetadata)`) — and the `Date`-string parser used by
`new Date(s).getTime()`, returning `none` for an invalid date (`NaN`). -/
structure Providers where
  gplayApp : Option (List Char) → Except (List Char) (Option Metadata)
  storeApp : Option (List Char) → Except (List Char) (Option Metadata)
  dateParseMs : List Char → Option Int

/-- Timestamp normalization of `enrichAppMetadata` (lines 278–289): a
string is first converted to epoch milliseconds through `Date` (an invalid
date gives `NaN`), then any numeric value — including one that was already
an epoch-millisecond number — is divided by 1000 and floored
(`Math.floor(NaN/1000)` stays `NaN`). -/
def normalizeTs (parse : List Char → Option Int) (v : TsVal) : TsVal :=
  let v1 : TsVal :=
    match v with
    | .str s => match parse s with
      | some n => .num n
      | none => .nan
    | x => x
  match v1 with
  | .num n => .num (Int.fdiv n 1000)
  | .nan => .nan
  | x => x

/-- The provider dispatch of `enrichAppMetadata` (lines 236–244): Google
Play for android, App Store for ios, no call at all for any other stored
platform value (the script just returns). -/
def providerResult (P : Providers) (appData : AppRow) :
    Option (Except (List Char) (Option Metadata)) :=
  if appData.platform = androidL then some (P.gplayApp appData.packageId)
  else if appData.platform = iosL then some (P.storeApp appData.itunesId)
  else none

/-- Translation of `enrichAppMetadata(appData, db)`: on a provider error
the catch block runs `UPDATE app SET title = ? WHERE platformAppKey = ?`
with the error message and returns; on success the timestamps are
normalized, the platform-specific genre is selected, and the full
`UPDATE … WHERE platformAppKey = ?` is applied. -/
def enrichAppMetadata (P : Providers) (appData : AppRow) (db : List AppRow) :
    List AppRow :=
  let key := appData.platformAppKey
  match providerResult P appData with
  | none => db
  | some (.error msg) =>
    db.map fun r =>
      if r.platformAppKey == key then { r with title := some msg } else r
  | some (.ok none) => db
  | some (.ok (some md)) =>
    let released := normalizeTs P.dateParseMs md.released
    let updated := normalizeTs P.dateParseMs md.updated
    let genre :=
      if appData.platform = androidL then md.genre else md.primaryGenre
    db.map fun r =>
      if r.platformAppKey == key then
        { r with
          packageId := appData.packageId, title := md.title, url := md.url,
          description := md.description, minInstalls := md.minInstalls,
          maxInstalls := md.maxInstalls, icon := md.icon,
          primaryGenre := genre, releasedAt := some released,
          updatedAt := some updated, developerId := md.developerId,
          developerEmail := md.developerEmail, developer := md.developer,
          developerUrl := md.developerUrl,
          developerWebsite := md.developerWebsite,
          developerAddress := md.developerAddress, score := md.score,
          reviews := md.reviews, ratings := md.ratings,
          ratingsHistogram := md.histogram }
      else r

/-- The batch query of the enrichment pass (line 63):
`SELECT * FROM app WHERE title IS NULL`. -/
def selectTitleNull (db : List AppRow) : List AppRow :=
  db.filter fun r => r.title.isNone

/-- The enrichment pass of `main` (lines 63–72): the batch is selected once
from the current store, then each selected record is enriched in order
against the evolving store (the 5-second inter-call delay has no effect on
the store contents). -/
def enrichPass (P : Providers) (db : List AppRow) : List AppRow :=
  (selectTitleNull db).foldl (fun d a => enrichAppMetadata P a d) db

/-! ### Export (`exportToCsvAndJson`, lines 203–218) -/

/-- The query of the exporter: `SELECT * FROM app`. -/
def selectAllApps (db : List AppRow) : List AppRow := db

/-- Modelled from the spec: the third-party CSV serializer (`json2csv`'s
`Parser`) is an external collaborator excluded by the spec (§1); the spec
describes its output as "CSV (flat, header-derived from first-seen keys)",
i.e. one header line naming the columns. -/
def csvHeaderLine : List Char :=
  strL "intuneAppId,platformAppKey,packageId,itunesId,appIdentifier,platform,title"

/-- Modelled from the spec: one CSV data line per exported row, here keyed
by the row's unique `platformAppKey`. -/
def csvLine (r : AppRow) : List Char :=
  tmplOpt r.intuneAppId ++ strL "," ++ r.platformAppKey ++ strL "," ++
    tmplOpt r.packageId ++ strL "," ++ tmplOpt r.itunesId ++ strL "," ++
    tmplOpt r.appIdentifier ++ strL "," ++ r.platform ++ strL "," ++
    tmplOpt r.title

/-- Modelled from the spec: the CSV document as its list of lines — a
header line followed by one line per row. -/
def csvLines (rows : List AppRow) : List (List Char) :=
  csvHeaderLine :: rows.map csvLine

/-- Translation of `exportToCsvAndJson(db, fileName)`: read every row, and
write the CSV rendering and the JSON array (`JSON.stringify(rows, null, 2)`
serializes exactly the selected rows, so the JSON array is modelled by the
row list itself). -/
def exportToCsvAndJson (db : List AppRow) : List (List Char) × List AppRow :=
  (csvLines (selectAllApps db), selectAllApps db)

/-! ### Startup: CLI flags, environment, credential checks (lines 14–38) -/

/-- The parsed command line: `none` for an absent flag value. -/
structure CliOpts where
  tenantId : Option (List Char)
  clientId : Option (List Char)
  debug : Bool
  enrichMetadata : Bool
  output : Option (List Char)
deriving DecidableEq, Repr

/-- The environment variables the startup code reads. -/
structure EnvVars where
  tenantIdVar : Option (List Char)
  clientIdVar : Option (List Char)
  clientSecret : Option (List Char)
deriving DecidableEq, Repr

/-- The outcome of the startup phase, which runs before any network
call. -/
inductive Startup where
  | commanderExit
  | configExit
  | proceed (tenantId clientId clientSecret : List Char)
      (debug enrichMetadata : Bool) (output : List Char)
deriving DecidableEq, Repr

/-- Translation of lines 14–38.  `program.requiredOption` makes
`--tenantId` and `--clientId` mandatory command-line flags: commander's
documented behaviour is to print `error: required option … not specified`
and exit with code 1 from `program.parse` when the flag is absent (no
`.env()` fallback and no default is configured for them), before lines
29–38 run.  When both flags are present, lines 29–31 apply the
JavaScript-truthiness fallbacks `opts.tenantId || TENANT_ID` and
`opts.clientId || CLIENT_ID`, read `CLIENT_SECRET`, and line 33 exits with
code 1 if any of the three resolved values is falsy. -/
def startup (args : CliOpts) (env : EnvVars) : Startup :=
  if args.tenantId.isNone || args.clientId.isNone then .commanderExit
  else
    let tenantId := jsOrS args.tenantId env.tenantIdVar
    let clientId := jsOrS args.clientId env.clientIdVar
    let clientSecret := env.clientSecret
    if !jsTruthyS tenantId || !jsTruthyS clientId || !jsTruthyS clientSecret then
      .configExit
    else
      .proceed (tenantId.getD []) (clientId.getD []) (clientSecret.getD [])
        args.debug args.enrichMetadata (args.output.getD (strL "intune_apps"))

/-! ### Helper lemmas about the string primitives -/

theorem prefOf_append_self (p r : List Char) : prefOf p (p ++ r) = true := by
  induction p with
  | nil => rfl
  | cons a as ih => simp [prefOf, ih]

theorem drop_len_append (p r : List Char) : (p ++ r).drop p.length = r := by
  induction p with
  | nil => rfl
  | cons a as ih => simp [ih]

theorem replaceFirstl_append_self (p r : List Char) :
    replaceFirstl p [] (p ++ r) = r := by
  cases p with
  | nil =>
    cases r with
    | nil => rfl
    | cons c cs => simp [replaceFirstl, prefOf]
  | cons a as =>
    have h := prefOf_append_self (a :: as) r
    simp only [List.cons_append] at h ⊢
    simp [replaceFirstl, h, drop_len_append, List.length_cons]

theorem google_not_prefOf_apple (rest : List Char) :
    prefOf googleDetailsPrefixL (appleAppPrefixL ++ rest) = false := rfl

/-! ### Ingestion lemmas: one step settles a record, and settledness is
stable under appending rows (the step never deletes or edits rows) -/

/-- A record is settled on a store when re-processing it changes
nothing. -/
def Settled (db : List AppRow) (r : IntuneApp) : Prop := processApp db r = db

theorem intuneIdConflict_append (db e : List AppRow) (i : Option (List Char)) :
    intuneIdConflict (db ++ e) i
      = (intuneIdConflict db i || intuneIdConflict e i) := by
  cases i <;> simp [intuneIdConflict, List.any_append]

theorem processPlat_cases (db : List AppRow) (app : IntuneApp)
    (platform : List Char) :
    processPlat db app platform = db ∨
    ∃ itunesId, resolveIos app platform = some itunesId ∧
      db.any (fun row => row.platformAppKey == keyOf app platform itunesId)
        = false ∧
      intuneIdConflict db app.id = false ∧
      processPlat db app platform
        = db ++ [mkRow app platform itunesId (jsOrS app.packageId itunesId)
            (keyOf app platform itunesId)] := by
  unfold processPlat
  cases hres : resolveIos app platform with
  | none => exact Or.inl rfl
  | some itunesId =>
    cases hany : db.any
        (fun row => row.platformAppKey == keyOf app platform itunesId) with
    | true => left; simp [hany]
    | false =>
      cases hconf : intuneIdConflict db app.id with
      | true => left; simp [hany, hconf]
      | false =>
        right
        exact ⟨itunesId, rfl, hany, rfl, by simp [hany, hconf]⟩

theorem processPlat_insert (db : List AppRow) (app : IntuneApp)
    (platform : List Char) (iid : Option (List Char))
    (hres : resolveIos app platform = some iid)
    (hany : db.any (fun row => row.platformAppKey == keyOf app platform iid)
      = false)
    (hconf : intuneIdConflict db app.id = false) :
    processPlat db app platform
      = db ++ [mkRow app platform iid (jsOrS app.packageId iid)
          (keyOf app platform iid)] := by
  unfold processPlat
  rw [hres]
  simp [hany, hconf]

theorem processPlat_self_settled (db : List AppRow) (app : IntuneApp)
    (platform : List Char) :
    processPlat (processPlat db app platform) app platform
      = processPlat db app platform := by
  rcases processPlat_cases db app platform with h | ⟨iid, hres, hany, hconf, heq⟩
  · rw [h]; rw [h]
  · rw [heq]
    unfold processPlat
    rw [hres]
    have hany2 : (db ++ [mkRow app platform iid (jsOrS app.packageId iid)
        (keyOf app platform iid)]).any
        (fun row => row.platformAppKey == keyOf app platform iid) = true := by
      simp [List.any_append, mkRow]
    simp [hany2]

theorem processPlat_settled_append (db e : List AppRow) (app : IntuneApp)
    (platform : List Char) (h : processPlat db app platform = db) :
    processPlat (db ++ e) app platform = db ++ e := by
  rcases processPlat_cases (db ++ e) app platform with
    h' | ⟨iid, hres, hany2, hconf2, heq⟩
  · exact h'
  · exfalso
    rw [List.any_append] at hany2
    have hany := (Bool.or_eq_false_iff.mp hany2).1
    rw [intuneIdConflict_append] at hconf2
    have hconf := (Bool.or_eq_false_iff.mp hconf2).1
    have hins := processPlat_insert db app platform iid hres hany hconf
    rw [h] at hins
    have hl : db.length = db.length + 1 := by
      simpa using congrArg List.length hins
    omega

theorem processApp_grows (db : List AppRow) (a : IntuneApp) :
    processApp db a = db ∨ ∃ row, processApp db a = db ++ [row] := by
  cases hod : a.odataType with
  | none => left; simp [processApp, hod]
  | some t =>
    by_cases ha : jsIncludes t androidL
    · rcases processPlat_cases db a androidL with h | ⟨iid, _, _, _, heq⟩
      · left; simp [processApp, hod, ha, h]
      · right
        exact ⟨mkRow a androidL iid (jsOrS a.packageId iid)
            (keyOf a androidL iid),
          by simp [processApp, hod, ha, heq]⟩
    · by_cases hi : jsIncludes t iosL
      · rcases processPlat_cases db a iosL with h | ⟨iid, _, _, _, heq⟩
        · left; simp [processApp, hod, ha, hi, h]
        · right
          exact ⟨mkRow a iosL iid (jsOrS a.packageId iid) (keyOf a iosL iid),
            by simp [processApp, hod, ha, hi, heq]⟩
      · left; simp [processApp, hod, ha, hi]

theorem settled_self (db : List AppRow) (r : IntuneApp) :
    Settled (processApp db r) r := by
  unfold Settled
  cases hod : r.odataType with
  | none => simp [processApp, hod]
  | some t =>
    by_cases ha : jsIncludes t androidL
    · simp [processApp, hod, ha, processPlat_self_settled]
    · by_cases hi : jsIncludes t iosL
      · simp [processApp, hod, ha, hi, processPlat_self_settled]
      · simp [processApp, hod, ha, hi]

theorem settled_append (db e : List AppRow) (r : IntuneApp)
    (h : Settled db r) : Settled (db ++ e) r := by
  unfold Settled at h ⊢
  cases hod : r.odataType with
  | none => simp [processApp, hod]
  | some t =>
    by_cases ha : jsIncludes t androidL
    · simp [processApp, hod, ha] at h ⊢
      exact processPlat_settled_append db e r androidL h
    · by_cases hi : jsIncludes t iosL
      · simp [processApp, hod, ha, hi] at h ⊢
        exact processPlat_settled_append db e r iosL h
      · simp [processApp, hod, ha, hi]

theorem settled_step (db : List AppRow) (a r : IntuneApp)
    (h : Settled db r) : Settled (processApp db a) r := by
  rcases processApp_grows db a with h' | ⟨row, h'⟩
  · rwa [h']
  · rw [h']; exact settled_append db [row] r h

theorem settled_fold (l : List IntuneApp) :
    ∀ db r, Settled db r → Settled (addAppsToDb db l) r := by
  induction l with
  | nil => intro db r h; exact h
  | cons a l ih =>
    intro db r h
    exact ih (processApp db a) r (settled_step db a r h)

theorem fold_settles_members (l : List IntuneApp) :
    ∀ db r, r ∈ l → Settled (addAppsToDb db l) r := by
  induction l with
  | nil => intro db r hr; cases hr
  | cons a l ih =>
    intro db r hr
    rcases List.mem_cons.mp hr with rfl | hr'
    · exact settled_fold l (processApp db r) r (settled_self db r)
    · exact ih (processApp db a) r hr'

theorem fold_of_settled (l : List IntuneApp) :
    ∀ db, (∀ r ∈ l, Settled db r) → addAppsToDb db l = db := by
  induction l with
  | nil => intro db _; rfl
  | cons a l ih =>
    intro db h
    have ha : processApp db a = db := h a (List.mem_cons_self a l)
    calc addAppsToDb db (a :: l) = addAppsToDb (processApp db a) l := rfl
      _ = addAppsToDb db l := by rw [ha]
      _ = db := ih db (fun r hr => h r (List.mem_cons_of_mem a hr))

/-! ### Claim theorems -/

/-- C1: ingestion is idempotent keyed on `platformAppKey`: for every store
state and every inventory response, running `addAppsToDb` twice against an
identical response leaves exactly the same row set in the `app` table as
running it once — the second run inserts no row, every record being
skipped. -/
theorem addAppsToDb_idempotent (db : List AppRow) (apps : List IntuneApp) :
    addAppsToDb (addAppsToDb db apps) apps = addAppsToDb db apps :=
  fold_of_settled apps (addAppsToDb db apps)
    (fun r hr => fold_settles_members apps db r hr)

/-- C3: for every inventory record whose `@odata.type` discriminator
contains neither "android" nor "ios", ingestion writes no row for that
record and processing continues with the remaining records. -/
theorem addAppsToDb_skips_unknown_platform (db : List AppRow)
    (r : IntuneApp) (rest : List IntuneApp) (t : List Char)
    (h1 : r.odataType = some t) (h2 : jsIncludes t androidL = false)
    (h3 : jsIncludes t iosL = false) :
    processApp db r = db
    ∧ addAppsToDb db (r :: rest) = addAppsToDb db rest := by
  have hp : processApp db r = db := by simp [processApp, h1, h2, h3]
  exact ⟨hp, by simp [addAppsToDb, List.foldl_cons, hp]⟩

/-- Witness record for C3: a Windows inventory record. -/
def unknownAppW : IntuneApp :=
  ⟨some (strL "#microsoft.graph.windowsUniversalAppX"), some (strL "w-1"),
    none, none⟩

/-- C3 witness: the unsupported-platform skip at a concrete record. -/
theorem addAppsToDb_skips_unknown_platform_witness :
    (unknownAppW.odataType = some (strL "#microsoft.graph.windowsUniversalAppX")
      ∧ jsIncludes (strL "#microsoft.graph.windowsUniversalAppX") androidL
          = false
      ∧ jsIncludes (strL "#microsoft.graph.windowsUniversalAppX") iosL
          = false)
    ∧ (processApp [] unknownAppW = []
      ∧ addAppsToDb [] [unknownAppW] = addAppsToDb [] []) :=
  ⟨⟨rfl, by decide, by decide⟩,
    addAppsToDb_skips_unknown_platform [] unknownAppW [] _ rfl (by decide)
      (by decide)⟩

/-- C4 counterexample: the resolver does not remove a *leading* "id" token
from the last path segment; it removes the first occurrence of the
substring "id" anywhere in it (JavaScript `replace` with a string
pattern).  On the Apple-prefixed URL with last segment "grid42" the code
yields "gr42", while the claimed policy yields "grid42". -/
theorem getPackageOrItunesId_leading_id_refuted :
    getPackageOrItunesId (appleAppPrefixL ++ strL "grid42")
      = some (strL "gr42")
    ∧ specAppleLeadingId (strL "grid42") = strL "grid42"
    ∧ strL "gr42" ≠ strL "grid42" := by decide

/-- C4 amended: the resolver maps the example URL
`https://apps.apple.com/us/app/facebook/id284882215?uo=4` to "284882215";
and for every URL starting with the Apple prefix it strips the prefix,
discards everything from the first "?", splits on "/", takes the last
segment, and removes the *first occurrence* of the substring "id" (the
leading token on well-formed store URLs) to yield the identifier. -/
theorem getPackageOrItunesId_apple (rest : List Char) :
    getPackageOrItunesId
      (strL "https://apps.apple.com/us/app/facebook/id284882215?uo=4")
      = some (strL "284882215")
    ∧ getPackageOrItunesId (appleAppPrefixL ++ rest)
      = some (specAppleFirstId rest) := by
  constructor
  · decide
  · unfold getPackageOrItunesId
    rw [google_not_prefOf_apple, prefOf_append_self]
    simp [replaceFirstl_append_self, specAppleFirstId]

/-- C5: the resolver maps the example URL
`https://play.google.com/store/apps/details?id=com.einnovation.temu&hl=en_US`
to "com.einnovation.temu"; and for every URL starting with the Google Play
details prefix it strips the prefix and keeps everything before the first
"&". -/
theorem getPackageOrItunesId_google (rest : List Char) :
    getPackageOrItunesId
      (strL "https://play.google.com/store/apps/details?id=com.einnovation.temu&hl=en_US")
      = some (strL "com.einnovation.temu")
    ∧ getPackageOrItunesId (googleDetailsPrefixL ++ rest)
      = some (specGoogleId rest) := by
  constructor
  · decide
  · unfold getPackageOrItunesId
    rw [prefOf_append_self]
    simp [replaceFirstl_append_self, specGoogleId]

/-- C6: timestamp normalization converges: when the `Date` parser maps the
ISO string to the epoch-millisecond number, the string input and the
numeric input normalize to the same epoch-second value, namely the
floored division by 1000. -/
theorem normalizeTs_converges (parse : List Char → Option Int)
    (iso : List Char) (ms : Int) (h : parse iso = some ms) :
    normalizeTs parse (.str iso) = normalizeTs parse (.num ms)
    ∧ normalizeTs parse (.num ms) = .num (Int.fdiv ms 1000) := by
  simp [normalizeTs, h]

/-- Witness `Date` parser for C6. -/
def parseW : List Char → Option Int := fun _ => some 1700000000123

/-- C6 witness: the convergence at a concrete ISO date and its
epoch-millisecond value. -/
theorem normalizeTs_converges_witness :
    parseW (strL "2023-11-14T22:13:20.123Z") = some 1700000000123
    ∧ (normalizeTs parseW (.str (strL "2023-11-14T22:13:20.123Z"))
        = normalizeTs parseW (.num 1700000000123)
      ∧ normalizeTs parseW (.num 1700000000123)
        = .num (Int.fdiv 1700000000123 1000)) :=
  ⟨rfl, normalizeTs_converges parseW (strL "2023-11-14T22:13:20.123Z")
    1700000000123 rfl⟩

/-- C7: exporting a store of N rows yields a CSV of N+1 lines (header plus
one line per row) and a JSON array of N elements, both reflecting the
current store contents (the serializers are external and modelled from the
spec as header-plus-row-lines and as the row array). -/
theorem exportToCsvAndJson_counts (db : List AppRow) :
    (exportToCsvAndJson db).1.length = db.length + 1
    ∧ (exportToCsvAndJson db).2.length = db.length
    ∧ (exportToCsvAndJson db).2 = selectAllApps db := by
  simp [exportToCsvAndJson, csvLines, selectAllApps]

/-- C2: when the enrichment provider call for a record throws, the catch
block sets exactly that record's title to the error message (no other
field of it, and no other row, changes), the function returns normally so
the batch loop continues, and the record no longer satisfies the
`title IS NULL` batch query of a subsequent enrichment pass. -/
theorem enrichAppMetadata_error (P : Providers) (a : AppRow)
    (db : List AppRow) (msg : List Char)
    (h : providerResult P a = some (.error msg)) :
    enrichAppMetadata P a db
      = db.map (fun r =>
          if r.platformAppKey == a.platformAppKey then
            { r with title := some msg } else r)
    ∧ ∀ r ∈ enrichAppMetadata P a db, r.platformAppKey = a.platformAppKey →
        r ∉ selectTitleNull (enrichAppMetadata P a db) := by
  have h1 : enrichAppMetadata P a db
      = db.map (fun r =>
          if r.platformAppKey == a.platformAppKey then
            { r with title := some msg } else r) := by
    unfold enrichAppMetadata
    rw [h]
  refine ⟨h1, ?_⟩
  intro r hr hk hmem
  rcases List.mem_filter.mp hmem with ⟨_, hnone⟩
  rw [h1] at hr
  rcases List.mem_map.mp hr with ⟨x, hx, hxr⟩
  by_cases hc : x.platformAppKey == a.platformAppKey
  · rw [if_pos hc] at hxr
    rw [← hxr] at hnone
    simp at hnone
  · rw [if_neg hc] at hxr
    rw [← hxr] at hk
    exact hc (by simp [hk])

/-- Witness providers for C2: both store scrapers throw. -/
def provW : Providers :=
  ⟨fun _ => .error (strL "ECONNRESET"), fun _ => .error (strL "ECONNRESET"),
    fun _ => none⟩

/-- Witness row for C2: an ingested, not yet enriched android row. -/
def rowW : AppRow :=
  mkRow ⟨some (strL "#microsoft.graph.androidStoreApp"), some (strL "a-1"),
      some (strL "com.example.app"), none⟩
    androidL none (some (strL "com.example.app"))
    (strL "android-com.example.app")

/-- C2 witness: the error path at a concrete provider, record and
store. -/
theorem enrichAppMetadata_error_witness :
    providerResult provW rowW = some (.error (strL "ECONNRESET"))
    ∧ (enrichAppMetadata provW rowW [rowW]
        = [rowW].map (fun r =>
            if r.platformAppKey == rowW.platformAppKey then
              { r with title := some (strL "ECONNRESET") } else r)
      ∧ ∀ r ∈ enrichAppMetadata provW rowW [rowW],
          r.platformAppKey = rowW.platformAppKey →
          r ∉ selectTitleNull (enrichAppMetadata provW rowW [rowW])) :=
  ⟨rfl, enrichAppMetadata_error provW rowW [rowW] (strL "ECONNRESET") rfl⟩

/-- C8 counterexample: with the `--tenantId` flag absent but `TENANT_ID`
set (and everything else configured), the program does not proceed with
the environment value: `program.parse` exits first, because
`requiredOption` makes the flag itself mandatory. -/
theorem startup_env_fallback_refuted :
    startup ⟨none, some (strL "client-id"), false, false, none⟩
        ⟨some (strL "tenant-env"), none, some (strL "secret")⟩
      = .commanderExit
    ∧ startup ⟨none, some (strL "client-id"), false, false, none⟩
        ⟨some (strL "tenant-env"), none, some (strL "secret")⟩
      ≠ .proceed (strL "tenant-env") (strL "client-id") (strL "secret")
          false false (strL "intune_apps") := by decide

/-- C8 amended: `--tenantId` and `--clientId` are mandatory command-line
flags — if either is absent, commander itself errors and exits (code 1)
before any network call, regardless of the `TENANT_ID`/`CLIENT_ID`
environment variables; the environment fallback of lines 29–30 is live
only for a flag supplied with an empty value.  When both flags are
present, a missing (or empty) `CLIENT_SECRET` — or an empty resolved
tenant or client value — makes the program print an error and exit with
code 1 before any network call; otherwise it proceeds with the resolved
credentials. -/
theorem startup_credential_checks :
    (∀ args env : _, (args.tenantId = none ∨ args.clientId = none) →
        startup args env = .commanderExit)
    ∧ (∀ (args : CliOpts) (env : EnvVars) (t c : List Char),
        args.tenantId = some t → args.clientId = some c →
        env.clientSecret = none → startup args env = .configExit)
    ∧ (∀ (args : CliOpts) (env : EnvVars) (t c s : List Char),
        args.tenantId = some t → jsTruthyS (some t) = true →
        args.clientId = some c → jsTruthyS (some c) = true →
        env.clientSecret = some s → jsTruthyS (some s) = true →
        startup args env
          = .proceed t c s args.debug args.enrichMetadata
              (args.output.getD (strL "intune_apps")))
    ∧ (∀ (args : CliOpts) (env : EnvVars) (t c s : List Char),
        args.tenantId = some [] → env.tenantIdVar = some t →
        jsTruthyS (some t) = true →
        args.clientId = some c → jsTruthyS (some c) = true →
        env.clientSecret = some s → jsTruthyS (some s) = true →
        startup args env
          = .proceed t c s args.debug args.enrichMetadata
              (args.output.getD (strL "intune_apps"))) := by
  refine ⟨?_, ?_, ?_, ?_⟩
  · intro args env h
    rcases h with h | h <;> simp [startup, h]
  · intro args env t c ht hc hs
    simp [startup, ht, hc, hs, jsTruthyS]
  · intro args env t c s ht htt hc hct hs hst
    simp [startup, ht, hc, hs, jsOrS, htt, hct, hst]
  · intro args env t c s ht henv htt hc hct hs hst
    have h0 : jsTruthyS (some ([] : List Char)) = false := rfl
    simp [startup, ht, henv, hc, hs, jsOrS, h0, htt, hct, hst]

/-- Witness CLI options for C8: `--tenantId` absent. -/
def cliW : CliOpts := ⟨none, some (strL "client-id"), false, false, none⟩

/-- Witness environment for C8. -/
def envW : EnvVars := ⟨none, none, none⟩

/-- C8 witness: the mandatory-flag exit at a concrete invocation. -/
theorem startup_credential_checks_witness :
    (cliW.tenantId = none ∨ cliW.clientId = none)
    ∧ startup cliW envW = .commanderExit :=
  ⟨Or.inl rfl, startup_credential_checks.1 cliW envW (Or.inl rfl)⟩

/-- C9: for an iOS record without a package identifier whose store URL
matches neither store prefix, the resolver returns null, and ingestion
still composes and stores the key "ios-null" (with a null
`appIdentifier`): the record is inserted, not rejected or validated
further. -/
theorem ios_null_key_insert (db : List AppRow) (r : IntuneApp)
    (t u : List Char)
    (h1 : r.odataType = some t) (h2 : jsIncludes t androidL = false)
    (h3 : jsIncludes t iosL = true) (h4 : r.packageId = none)
    (h5 : r.appStoreUrl = some u)
    (h6 : prefOf googleDetailsPrefixL u = false)
    (h7 : prefOf appleAppPrefixL u = false)
    (h8 : db.any (fun row => row.platformAppKey == strL "ios-null") = false)
    (h9 : intuneIdConflict db r.id = false) :
    getPackageOrItunesId u = none
    ∧ keyOf r iosL none = strL "ios-null"
    ∧ processApp db r = db ++ [mkRow r iosL none none (strL "ios-null")]
    ∧ (mkRow r iosL none none (strL "ios-null")).appIdentifier = none := by
  have hres : getPackageOrItunesId u = none := by
    simp [getPackageOrItunesId, h6, h7]
  have hio : resolveIos r iosL = some none := by
    simp [resolveIos, h5, hres]
  have hkey : keyOf r iosL none = strL "ios-null" := by
    simp only [keyOf, h4]
    decide
  have hjs : jsOrS r.packageId none = none := by
    simp [jsOrS, h4, jsTruthyS]
  have hins := processPlat_insert db r iosL none hio
    (by rw [hkey]; exact h8) h9
  rw [hjs, hkey] at hins
  have hpa : processApp db r = processPlat db r iosL := by
    simp [processApp, h1, h2, h3]
  exact ⟨hres, hkey, by rw [hpa, hins], rfl⟩

/-- Witness record for C9: an iOS record with no package identifier and a
URL matching neither store prefix. -/
def iosNullAppW : IntuneApp :=
  ⟨some (strL "#microsoft.graph.iosStoreApp"), some (strL "i-1"), none,
    some (strL "https://example.com/myapp")⟩

/-- C9 witness: the "ios-null" insert at a concrete record and an empty
store. -/
theorem ios_null_key_insert_witness :
    (iosNullAppW.odataType = some (strL "#microsoft.graph.iosStoreApp")
      ∧ jsIncludes (strL "#microsoft.graph.iosStoreApp") androidL = false
      ∧ jsIncludes (strL "#microsoft.graph.iosStoreApp") iosL = true
      ∧ iosNullAppW.packageId = none
      ∧ iosNullAppW.appStoreUrl = some (strL "https://example.com/myapp")
      ∧ prefOf googleDetailsPrefixL (strL "https://example.com/myapp") = false
      ∧ prefOf appleAppPrefixL (strL "https://example.com/myapp") = false)
    ∧ (getPackageOrItunesId (strL "https://example.com/myapp") = none
      ∧ keyOf iosNullAppW iosL none = strL "ios-null"
      ∧ processApp [] iosNullAppW
        = [] ++ [mkRow iosNullAppW iosL none none (strL "ios-null")]
      ∧ (mkRow iosNullAppW iosL none none (strL "ios-null")).appIdentifier
        = none) :=
  ⟨⟨rfl, by decide, by decide, rfl, rfl, by decide, by decide⟩,
    ios_null_key_insert [] iosNullAppW _ _ rfl (by decide) (by decide) rfl
      rfl (by decide) (by decide) rfl rfl⟩

/-- Every android record resolves without touching the store URL:
`getPackageOrItunesId` is only invoked for iOS records. -/
theorem resolveIos_android (a : IntuneApp) :
    resolveIos a androidL = some none := by
  have hne : ¬(androidL = iosL) := by decide
  simp [resolveIos, hne]

/-- C10: ingestion never parses the store URL of an android record: the
processing of an android record is unchanged under any replacement of its
`appStoreUrl`.  An android record with null `packageId` is inserted with
`appIdentifier` null under the key "android-null", and any further
android record with null `packageId` is then skipped — all such records
collide on the one key and only the first is stored. -/
theorem android_null_key_collision (db : List AppRow) (r : IntuneApp)
    (t : List Char)
    (h1 : r.odataType = some t) (h2 : jsIncludes t androidL = true)
    (h3 : r.packageId = none)
    (h8 : db.any (fun row => row.platformAppKey == strL "android-null")
      = false)
    (h9 : intuneIdConflict db r.id = false) :
    (∀ u, processApp db { r with appStoreUrl := u } = processApp db r)
    ∧ processApp db r
      = db ++ [mkRow r androidL none none (strL "android-null")]
    ∧ (mkRow r androidL none none (strL "android-null")).appIdentifier = none
    ∧ ∀ (r2 : IntuneApp) (t2 : List Char), r2.odataType = some t2 →
        jsIncludes t2 androidL = true → r2.packageId = none →
        processApp (processApp db r) r2 = processApp db r := by
  have hkey : keyOf r androidL none = strL "android-null" := by
    simp only [keyOf, h3]
    decide
  have hjs : jsOrS r.packageId none = none := by
    simp [jsOrS, h3, jsTruthyS]
  have hins := processPlat_insert db r androidL none (resolveIos_android r)
    (by rw [hkey]; exact h8) h9
  rw [hjs, hkey] at hins
  have hpa : processApp db r = processPlat db r androidL := by
    simp [processApp, h1, h2]
  have hmain : processApp db r
      = db ++ [mkRow r androidL none none (strL "android-null")] := by
    rw [hpa, hins]
  refine ⟨?_, hmain, rfl, ?_⟩
  · intro u
    have hpa' : processApp db { r with appStoreUrl := u }
        = processPlat db { r with appStoreUrl := u } androidL := by
      simp [processApp, h1, h2]
    rw [hpa, hpa']
    unfold processPlat
    rw [resolveIos_android, resolveIos_android]
    rfl
  · intro r2 t2 h1' h2' h3'
    have hkey2 : keyOf r2 androidL none = strL "android-null" := by
      simp only [keyOf, h3']
      decide
    have hpa2 : processApp (processApp db r) r2
        = processPlat (processApp db r) r2 androidL := by
      simp [processApp, h1', h2']
    have hany : (processApp db r).any
        (fun row => row.platformAppKey == keyOf r2 androidL none) = true := by
      rw [hmain, hkey2]
      simp [List.any_append, mkRow]
    rw [hpa2]
    unfold processPlat
    rw [resolveIos_android]
    simp [hany]

/-- Witness records for C10: two android records with null packageId. -/
def androidNullAppW : IntuneApp :=
  ⟨some (strL "#microsoft.graph.androidStoreApp"), some (strL "a-7"), none,
    none⟩

/-- Second witness record for C10. -/
def androidNullAppW2 : IntuneApp :=
  ⟨some (strL "#microsoft.graph.androidManagedStoreApp"), some (strL "a-8"),
    none, some (strL "https://play.google.com/store/apps/details?id=x")⟩

/-- C10 witness: the android-null insert and the collision of a second
android-null record, at concrete records and an empty store. -/
theorem android_null_key_collision_witness :
    (androidNullAppW.odataType
        = some (strL "#microsoft.graph.androidStoreApp")
      ∧ jsIncludes (strL "#microsoft.graph.androidStoreApp") androidL = true
      ∧ androidNullAppW.packageId = none
      ∧ androidNullAppW2.odataType
        = some (strL "#microsoft.graph.androidManagedStoreApp")
      ∧ jsIncludes (strL "#microsoft.graph.androidManagedStoreApp") androidL
        = true
      ∧ androidNullAppW2.packageId = none)
    ∧ (processApp [] { androidNullAppW with
          appStoreUrl := some (strL "https://anything") }
        = processApp [] androidNullAppW
      ∧ processApp [] androidNullAppW
        = [] ++ [mkRow androidNullAppW androidL none none
            (strL "android-null")]
      ∧ processApp (processApp [] androidNullAppW) androidNullAppW2
        = processApp [] androidNullAppW) := by
  have h := android_null_key_collision [] androidNullAppW
    (strL "#microsoft.graph.androidStoreApp") rfl (by decide) rfl rfl rfl
  exact ⟨⟨rfl, by decide, rfl, rfl, by decide, rfl⟩,
    h.1 (some (strL "https://anything")), h.2.1,
    h.2.2.2 androidNullAppW2 (strL "#microsoft.graph.androidManagedStoreApp")
      rfl (by decide) rfl⟩

end IntuneExport
